import Mathlib

/-!
Shallow embedding of the STM32F411 W25Q128 UART bootloader core
(`uart_bootloader.c` and `w25q128.c`), with proofs of the testable
properties of its specification.

Bytes are modelled as `Nat` values; `uint16_t`/`uint32_t` arithmetic is
made explicit with `&&& 0xFFFF` / `% 2^32` where the C code truncates.
-/

/-! ### Device and protocol constants (from `w25q128.h` / `uart_bootloader.h`) -/

def W25Q128_PAGE_SIZE : Nat := 256

def W25Q128_SECTOR_SIZE : Nat := 4096

def W25Q128_TOTAL_SIZE : Nat := 16 * 1024 * 1024

def BOOT_MAX_DATA_SIZE : Nat := 4096

def BOOT_BUFFER_SIZE : Nat := 256

def BOOT_ACK : Nat := 0x79

def BOOT_NACK : Nat := 0x1F

/-! ### CRC-16 (`BOOT_CalculateCRC16`, uart_bootloader.c lines 19-36) -/

/-- Inner 8-step loop of `BOOT_CalculateCRC16`: one iteration shifts the
16-bit accumulator left and XORs `0x1021` when the high bit was set.
`&&& 0xFFFF` models the `uint16_t` truncation of the C assignment. -/
def crcInner : Nat → Nat → Nat
  | crc, 0 => crc
  | crc, j + 1 =>
    crcInner
      (if crc &&& 0x8000 ≠ 0 then ((crc <<< 1) ^^^ 0x1021) &&& 0xFFFF
       else (crc <<< 1) &&& 0xFFFF) j

/-- Embedding of `BOOT_CalculateCRC16`: initial value `0xFFFF`; each data
byte (a `uint8_t`, hence `&&& 0xFF`) is XORed into the high accumulator
byte, followed by eight `crcInner` steps. -/
def BOOT_CalculateCRC16 (data : List Nat) : Nat :=
  data.foldl (fun crc b => crcInner ((crc ^^^ ((b &&& 0xFF) <<< 8)) &&& 0xFFFF) 8) 0xFFFF

/-- Modelled from the spec's words (section 4.2): one CRC-16/CCITT-FALSE
shift step — if the high bit of the accumulator is set, shift left one and
XOR with `0x1021`; else shift left one. -/
def crcCCITTStep (crc : Nat) : Nat :=
  if crc &&& 0x8000 ≠ 0 then ((crc <<< 1) ^^^ 0x1021) &&& 0xFFFF
  else (crc <<< 1) &&& 0xFFFF

/-- Modelled from the spec's words: for each byte, XOR into the high byte of
the accumulator, then iterate `crcCCITTStep` eight times. -/
def crcCCITTByte (crc b : Nat) : Nat :=
  crcCCITTStep^[8] ((crc ^^^ ((b &&& 0xFF) <<< 8)) &&& 0xFFFF)

/-- Modelled from the spec's words: CRC-16/CCITT-FALSE with initial value
`0xFFFF`, polynomial `0x1021`, MSB-first, no reflection, no final XOR. -/
def crcCCITTFalse (s : List Nat) : Nat := s.foldl crcCCITTByte 0xFFFF

/-! ### Multi-page write chunking (`W25Q128_Write`, w25q128.c lines 718-747) -/

/-- Fuel-indexed embedding of the `W25Q128_Write` loop: each iteration
programs `min (PAGE_SIZE - addr % PAGE_SIZE) remaining` bytes at the current
address, then advances the `uint32_t` address (hence `% 2^32`).  The fuel is
only a termination device; `W25Q128_WriteChunks` supplies enough. -/
def writeChunksF : Nat → Nat → Nat → List (Nat × Nat)
  | 0, _, _ => []
  | fuel + 1, addr, len =>
    if len = 0 then []
    else
      let wl := min (W25Q128_PAGE_SIZE - addr % W25Q128_PAGE_SIZE) len
      (addr, wl) :: writeChunksF fuel ((addr + wl) % 4294967296) (len - wl)

/-- The (address, length) pairs of the successive `W25Q128_WritePage` calls
emitted by `W25Q128_Write addr` on a buffer of `len` bytes. -/
def W25Q128_WriteChunks (addr len : Nat) : List (Nat × Nat) := writeChunksF len addr len

/-- Decidable check that a chunk list is contiguous starting at a given
`uint32_t` address: each chunk starts where the previous one ended. -/
def contiguousFrom : Nat → List (Nat × Nat) → Bool
  | _, [] => true
  | a, c :: r => (c.1 == a) && contiguousFrom ((c.1 + c.2) % 4294967296) r

/-! ### Lemmas for the CRC claim (C9) -/

theorem crcInner_eq_iterate (n c : Nat) : crcInner c n = crcCCITTStep^[n] c := by
  induction n generalizing c with
  | zero => rfl
  | succ m ih =>
    rw [crcInner, Function.iterate_succ_apply]
    exact ih _

set_option maxRecDepth 4096 in
/-- C9: `BOOT_CalculateCRC16` equals the CRC-16/CCITT-FALSE reference
definition (initial value `0xFFFF`, polynomial `0x1021`, MSB-first, no
reflection, no final XOR, per-byte XOR into the high accumulator byte then
eight conditional shift-and-XOR steps), and the CRC of the ASCII bytes of
"123456789" is `0x29B1`. -/
theorem BOOT_CalculateCRC16_spec :
    (∀ s : List Nat, BOOT_CalculateCRC16 s = crcCCITTFalse s) ∧
    BOOT_CalculateCRC16 [0x31, 0x32, 0x33, 0x34, 0x35, 0x36, 0x37, 0x38, 0x39] = 0x29B1 := by
  have hfb : (fun crc b => crcInner ((crc ^^^ ((b &&& 0xFF) <<< 8)) &&& 0xFFFF) 8) = crcCCITTByte := by
    funext crc b
    rw [crcCCITTByte, crcInner_eq_iterate]
  constructor
  · intro s
    unfold BOOT_CalculateCRC16 crcCCITTFalse
    rw [hfb]
  · decide

/-! ### Lemmas for the page-boundary claim (C1) -/

theorem writeChunksF_pageBound :
    ∀ (fuel addr len : Nat), len ≤ fuel →
      ∀ c ∈ writeChunksF fuel addr len, c.1 % 256 + c.2 ≤ 256 := by
  intro fuel
  induction fuel with
  | zero =>
    intro addr len hlen c hc
    simp [writeChunksF] at hc
  | succ f ih =>
    intro addr len hlen c hc
    rw [writeChunksF] at hc
    by_cases h0 : len = 0
    · simp [h0] at hc
    · simp only [if_neg h0, List.mem_cons] at hc
      have hmod : addr % 256 < 256 := Nat.mod_lt _ (by omega)
      rcases hc with rfl | hc
      · simp only [W25Q128_PAGE_SIZE]
        omega
      · refine ih _ _ ?_ _ hc
        simp only [W25Q128_PAGE_SIZE]
        omega

theorem writeChunksF_sum :
    ∀ (fuel addr len : Nat), len ≤ fuel →
      ((writeChunksF fuel addr len).map Prod.snd).sum = len := by
  intro fuel
  induction fuel with
  | zero =>
    intro addr len hlen
    simp [writeChunksF]
    omega
  | succ f ih =>
    intro addr len hlen
    rw [writeChunksF]
    by_cases h0 : len = 0
    · simp [h0]
    · have hmod : addr % 256 < 256 := Nat.mod_lt _ (by omega)
      simp only [if_neg h0, List.map_cons, List.sum_cons]
      rw [ih _ _ (by simp only [W25Q128_PAGE_SIZE]; omega)]
      simp only [W25Q128_PAGE_SIZE]
      omega

theorem writeChunksF_contig :
    ∀ (fuel addr len : Nat), contiguousFrom addr (writeChunksF fuel addr len) = true := by
  intro fuel
  induction fuel with
  | zero => intro addr len; simp [writeChunksF, contiguousFrom]
  | succ f ih =>
    intro addr len
    rw [writeChunksF]
    by_cases h0 : len = 0
    · simp [h0, contiguousFrom]
    · simp only [if_neg h0, contiguousFrom, beq_self_eq_true, Bool.true_and]
      exact ih _ _

/-- C1: for every call to the driver's multi-page write with `|buf| ≤
2·PAGE_SIZE`, the `program_page` (address, length) pairs emitted by the
`W25Q128_Write` loop each satisfy `a % 256 + n ≤ 256` (no program crosses a
256-byte page boundary), their lengths sum to `|buf|`, and consecutive
chunks are contiguous (in `uint32_t` arithmetic) starting at `addr`. -/
theorem W25Q128_Write_pageBounded (addr len : Nat) (_hlen : len ≤ 2 * W25Q128_PAGE_SIZE) :
    (∀ c ∈ W25Q128_WriteChunks addr len, c.1 % 256 + c.2 ≤ 256) ∧
    ((W25Q128_WriteChunks addr len).map Prod.snd).sum = len ∧
    contiguousFrom addr (W25Q128_WriteChunks addr len) = true :=
  ⟨writeChunksF_pageBound len addr len le_rfl,
   writeChunksF_sum len addr len le_rfl,
   writeChunksF_contig len addr len⟩

/-- Witness for C1 at the concrete call `write(0x80, buf)` with a 384-byte
buffer: the emitted chunks are `(0x80, 128)` and `(0x100, 256)`. -/
theorem W25Q128_Write_pageBounded_witness :
    384 ≤ 2 * W25Q128_PAGE_SIZE ∧
    ((∀ c ∈ W25Q128_WriteChunks 128 384, c.1 % 256 + c.2 ≤ 256) ∧
     ((W25Q128_WriteChunks 128 384).map Prod.snd).sum = 384 ∧
     contiguousFrom 128 (W25Q128_WriteChunks 128 384) = true) :=
  ⟨by decide, W25Q128_Write_pageBounded 128 384 (by decide)⟩

/-! ### Busy-poll model (`W25Q128_WaitForWriteEnd`, w25q128.c lines 560-580) -/

/-- Return status of the flash driver (`W25Q128_Status_t`). -/
inductive W25Status where
  | ok
  | error
  | busy
  | timeout
deriving DecidableEq

/-- Observable events of the busy-poll loop: a status-register read and a
monotonic-tick deadline comparison. -/
inductive PollEv where
  | read
  | check
deriving DecidableEq

/-- One `do { read status; if tick > deadline return TIMEOUT } while (busy)`
loop, read oracle `rd` (the `i`-th status read, `none` = SPI failure) and
tick oracle `tk` (`tk 0` is the entry `HAL_GetTick()`, `tk (i+1)` the sample
of iteration `i`).  Returns the driver status (`none` when the fuel runs
out before the loop exits) and the event trace. -/
def waitAux (rd : Nat → Option Nat) (tk : Nat → Nat) (dl : Nat) :
    Nat → Nat → Option W25Status × List PollEv
  | 0, _ => (none, [])
  | fuel + 1, i =>
    match rd i with
    | none => (some .error, [.read])
    | some st =>
      if tk (i + 1) > dl then (some .timeout, [.read, .check])
      else if st &&& 1 ≠ 0 then
        let r := waitAux rd tk dl fuel (i + 1)
        (r.1, .read :: .check :: r.2)
      else (some .ok, [.read, .check])

/-- Embedding of `W25Q128_WaitForWriteEnd`: deadline is the entry tick plus
`5000` ms (`BUSY_TIMEOUT_MS`). -/
def W25Q128_WaitForWriteEnd (rd : Nat → Option Nat) (tk : Nat → Nat) (fuel : Nat) :
    Option W25Status × List PollEv :=
  waitAux rd tk (tk 0 + 5000) fuel 0

/-- Checker that a poll event trace alternates read-first: every deadline
check is immediately preceded by a status read. -/
def pollAlt : List PollEv → Bool
  | [] => true
  | .read :: [] => true
  | .read :: .check :: r => pollAlt r
  | _ => false

/-- Iteration `j` of the busy-poll loop continues: the status read succeeds,
the tick sample does not exceed the deadline, and BUSY (bit 0) is set. -/
def waitCont (rd : Nat → Option Nat) (tk : Nat → Nat) (j : Nat) : Prop :=
  ∃ st, rd j = some st ∧ tk (j + 1) ≤ tk 0 + 5000 ∧ st &&& 1 ≠ 0

theorem waitAux_alt (rd : Nat → Option Nat) (tk : Nat → Nat) (dl : Nat) :
    ∀ (fuel i : Nat), pollAlt (waitAux rd tk dl fuel i).2 = true := by
  intro fuel
  induction fuel with
  | zero => intro i; rfl
  | succ f ih =>
    intro i
    rw [waitAux]
    cases h : rd i with
    | none => rfl
    | some st =>
      dsimp only
      by_cases h1 : tk (i + 1) > dl
      · rw [if_pos h1]
        rfl
      · by_cases h2 : st &&& 1 ≠ 0
        · rw [if_neg h1, if_pos h2]
          exact ih (i + 1)
        · rw [if_neg h1, if_neg h2]
          rfl

theorem waitAux_headRead (rd : Nat → Option Nat) (tk : Nat → Nat) (dl : Nat) :
    ∀ (fuel i : Nat), 0 < fuel → (waitAux rd tk dl fuel i).2.head? = some PollEv.read := by
  intro fuel i hf
  match fuel, hf with
  | f + 1, _ =>
    rw [waitAux]
    cases h : rd i with
    | none => rfl
    | some st =>
      dsimp only
      by_cases h1 : tk (i + 1) > dl
      · rw [if_pos h1]
        rfl
      · by_cases h2 : st &&& 1 ≠ 0
        · rw [if_neg h1, if_pos h2]
          rfl
        · rw [if_neg h1, if_neg h2]
          rfl

theorem waitAux_shift (rd : Nat → Option Nat) (tk : Nat → Nat) (dl : Nat) :
    ∀ (n i fuel : Nat),
      (∀ j, i ≤ j → j < i + n → ∃ st, rd j = some st ∧ tk (j + 1) ≤ dl ∧ st &&& 1 ≠ 0) →
      (waitAux rd tk dl (n + fuel) i).1 = (waitAux rd tk dl fuel (i + n)).1 := by
  intro n
  induction n with
  | zero => intro i fuel _; rw [Nat.zero_add, Nat.add_zero]
  | succ m ih =>
    intro i fuel hc
    obtain ⟨st, hrd, htk, hb⟩ := hc i le_rfl (by omega)
    have : m + 1 + fuel = (m + fuel) + 1 := by omega
    rw [this, waitAux, hrd]
    dsimp only
    rw [if_neg (by omega : ¬ tk (i + 1) > dl), if_pos hb]
    have := ih (i + 1) fuel (by intro j hj1 hj2; exact hc j (by omega) (by omega))
    simpa [Nat.add_comm, Nat.add_assoc, Nat.add_left_comm] using this

theorem waitAux_timeout_src (rd : Nat → Option Nat) (tk : Nat → Nat) (dl : Nat) :
    ∀ (fuel i : Nat), (waitAux rd tk dl fuel i).1 = some W25Status.timeout →
      ∃ j, tk (j + 1) > dl := by
  intro fuel
  induction fuel with
  | zero => intro i h; simp [waitAux] at h
  | succ f ih =>
    intro i h
    rw [waitAux] at h
    cases hr : rd i with
    | none => rw [hr] at h; simp at h
    | some st =>
      rw [hr] at h
      dsimp only at h
      by_cases h1 : tk (i + 1) > dl
      · exact ⟨i, h1⟩
      · by_cases h2 : st &&& 1 ≠ 0
        · rw [if_neg h1, if_pos h2] at h
          exact ih (i + 1) h
        · rw [if_neg h1, if_neg h2] at h
          simp at h

theorem waitAux_error_src (rd : Nat → Option Nat) (tk : Nat → Nat) (dl : Nat) :
    ∀ (fuel i : Nat), (waitAux rd tk dl fuel i).1 = some W25Status.error →
      ∃ j, rd j = none := by
  intro fuel
  induction fuel with
  | zero => intro i h; simp [waitAux] at h
  | succ f ih =>
    intro i h
    rw [waitAux] at h
    cases hr : rd i with
    | none => exact ⟨i, hr⟩
    | some st =>
      rw [hr] at h
      dsimp only at h
      by_cases h1 : tk (i + 1) > dl
      · rw [if_pos h1] at h
        simp at h
      · by_cases h2 : st &&& 1 ≠ 0
        · rw [if_neg h1, if_pos h2] at h
          exact ih (i + 1) h
        · rw [if_neg h1, if_neg h2] at h
          simp at h

/-- C5: `W25Q128_WaitForWriteEnd` polls the status register until BUSY
clears or the tick exceeds `entry + 5000` ms.  Provided every iteration
before `i` continues the loop and the fuel reaches iteration `i`: the event
trace reads before every deadline check and starts with a read; iteration
`i` returns a transport error exactly when its read fails, a timeout when
its tick sample overruns the deadline, and success when it observes BUSY=0
within the deadline; moreover any timeout result implies a deadline overrun
and any error result implies a failed read. -/
theorem W25Q128_WaitForWriteEnd_spec (rd : Nat → Option Nat) (tk : Nat → Nat)
    (fuel i : Nat) (hc : ∀ j, j < i → waitCont rd tk j) (hf : i < fuel) :
    pollAlt (W25Q128_WaitForWriteEnd rd tk fuel).2 = true ∧
    (W25Q128_WaitForWriteEnd rd tk fuel).2.head? = some PollEv.read ∧
    (rd i = none → (W25Q128_WaitForWriteEnd rd tk fuel).1 = some W25Status.error) ∧
    (∀ st, rd i = some st → tk (i + 1) > tk 0 + 5000 →
      (W25Q128_WaitForWriteEnd rd tk fuel).1 = some W25Status.timeout) ∧
    (∀ st, rd i = some st → tk (i + 1) ≤ tk 0 + 5000 → st &&& 1 = 0 →
      (W25Q128_WaitForWriteEnd rd tk fuel).1 = some W25Status.ok) ∧
    ((W25Q128_WaitForWriteEnd rd tk fuel).1 = some W25Status.timeout →
      ∃ j, tk (j + 1) > tk 0 + 5000) ∧
    ((W25Q128_WaitForWriteEnd rd tk fuel).1 = some W25Status.error →
      ∃ j, rd j = none) := by
  have hfe : fuel = i + (fuel - i - 1) + 1 := by omega
  have hshift : (W25Q128_WaitForWriteEnd rd tk fuel).1 =
      (waitAux rd tk (tk 0 + 5000) (fuel - i) i).1 := by
    unfold W25Q128_WaitForWriteEnd
    have := waitAux_shift rd tk (tk 0 + 5000) i 0 (fuel - i)
      (by intro j hj1 hj2; exact hc j (by omega))
    rw [show i + (fuel - i) = fuel by omega] at this
    simpa using this
  have hfi : fuel - i = (fuel - i - 1) + 1 := by omega
  refine ⟨waitAux_alt rd tk _ fuel 0, waitAux_headRead rd tk _ fuel 0 (by omega), ?_, ?_, ?_, ?_, ?_⟩
  · intro hrd
    rw [hshift, hfi, waitAux, hrd]
  · intro st hrd htk
    rw [hshift, hfi, waitAux, hrd]
    simp [htk]
  · intro st hrd htk hb
    rw [hshift, hfi, waitAux, hrd]
    simp [htk, hb, Nat.not_lt.mpr htk]
  · exact waitAux_timeout_src rd tk _ fuel 0
  · exact waitAux_error_src rd tk _ fuel 0

/-- Witness for C5: with a status read that immediately reports BUSY=0 and a
constant tick, the poll returns success on its first iteration. -/
theorem W25Q128_WaitForWriteEnd_spec_witness :
    (∀ j, j < 0 → waitCont (fun _ => some 0) (fun _ => 0) j) ∧ 0 < 1 ∧
    (pollAlt (W25Q128_WaitForWriteEnd (fun _ => some 0) (fun _ => 0) 1).2 = true ∧
     (W25Q128_WaitForWriteEnd (fun _ => some 0) (fun _ => 0) 1).2.head? = some PollEv.read ∧
     ((fun (_ : Nat) => some 0) 0 = none →
       (W25Q128_WaitForWriteEnd (fun _ => some 0) (fun _ => 0) 1).1 = some W25Status.error) ∧
     (∀ st, (fun (_ : Nat) => some 0) 0 = some st → (fun (_ : Nat) => 0) 1 > (fun (_ : Nat) => 0) 0 + 5000 →
       (W25Q128_WaitForWriteEnd (fun _ => some 0) (fun _ => 0) 1).1 = some W25Status.timeout) ∧
     (∀ st, (fun (_ : Nat) => some 0) 0 = some st → (fun (_ : Nat) => 0) 1 ≤ (fun (_ : Nat) => 0) 0 + 5000 → st &&& 1 = 0 →
       (W25Q128_WaitForWriteEnd (fun _ => some 0) (fun _ => 0) 1).1 = some W25Status.ok) ∧
     ((W25Q128_WaitForWriteEnd (fun _ => some 0) (fun _ => 0) 1).1 = some W25Status.timeout →
       ∃ j, (fun (_ : Nat) => 0) (j + 1) > (fun (_ : Nat) => 0) 0 + 5000) ∧
     ((W25Q128_WaitForWriteEnd (fun _ => some 0) (fun _ => 0) 1).1 = some W25Status.error →
       ∃ j, (fun (_ : Nat) => some 0) j = none)) :=
  ⟨fun j h => absurd h (Nat.not_lt_zero j), Nat.zero_lt_one,
   W25Q128_WaitForWriteEnd_spec (fun _ => some 0) (fun _ => 0) 1 0
     (fun j h => absurd h (Nat.not_lt_zero j)) Nat.zero_lt_one⟩

/-! ### Protocol engine model (`uart_bootloader.c`) -/

/-- Return status of the bootloader engine (`BOOT_Status_t`). -/
inductive BootStatus where
  | ok
  | error
  | timeout
  | crcErr
deriving DecidableEq

/-- Flash-driver calls a command handler can issue. -/
inductive FlashOp where
  | fwrite (addr : Nat) (buf : List Nat)
  | fread (addr len : Nat)
  | feraseSector (addr : Nat)
  | feraseChip
  | freadID
  | freadJEDEC
deriving DecidableEq

/-- Oracle for the flash driver as seen by the protocol engine. -/
structure Flash where
  idRes : Option (Nat × Nat)
  jedecRes : Option (Nat × Nat × Nat)
  writeOk : Nat → List Nat → Bool
  readRes : Nat → Nat → Option (List Nat)
  eraseSectorOk : Nat → Bool
  eraseChipOk : Bool

/-- Result of one command-handler run: returned status, UART bytes sent to
the host, remaining (unconsumed) input stream, flash operations invoked, and
the increments of `total_bytes_written` / `total_bytes_read`. -/
structure BootRes where
  st : BootStatus
  out : List Nat
  rest : List Nat
  ops : List FlashOp
  dWritten : Nat
  dRead : Nat
deriving DecidableEq

/-- `HAL_UART_Receive` of `n` bytes from the modelled input stream: succeeds
with the first `n` bytes exactly when the stream holds at least `n`. -/
def recvN (n : Nat) (s : List Nat) : Option (List Nat × List Nat) :=
  if n ≤ s.length then some (s.take n, s.drop n) else none

/-- Little-endian 32-bit decode, as in
`buffer[0] | buffer[1] << 8 | buffer[2] << 16 | buffer[3] << 24`. -/
def le32 (bs : List Nat) : Nat :=
  bs.getD 0 0 ||| (bs.getD 1 0 <<< 8) ||| (bs.getD 2 0 <<< 16) ||| (bs.getD 3 0 <<< 24)

/-- Little-endian 16-bit decode, as in `buffer[0] | buffer[1] << 8`. -/
def le16 (bs : List Nat) : Nat :=
  bs.getD 0 0 ||| (bs.getD 1 0 <<< 8)

/-- The chunked payload-receive loop of `BOOT_HandleWrite`: receives `rem`
bytes in chunks of at most `BOOT_BUFFER_SIZE = 256`.  The fuel is a
termination device; `rem` itself always suffices. -/
def recvChunksF : Nat → Nat → List Nat → Option (List Nat × List Nat)
  | 0, rem, s => if rem = 0 then some ([], s) else none
  | fuel + 1, rem, s =>
    if rem = 0 then some ([], s)
    else
      let ch := min BOOT_BUFFER_SIZE rem
      match recvN ch s with
      | none => none
      | some (bs, s1) =>
        match recvChunksF fuel (rem - ch) s1 with
        | none => none
        | some (rest2, s2) => some (bs ++ rest2, s2)

/-- Embedding of `BOOT_HandleWrite` (uart_bootloader.c lines 106-189). -/
def BOOT_HandleWrite (fl : Flash) (inp : List Nat) : BootRes :=
  match recvN 4 inp with
  | none => ⟨.timeout, [BOOT_NACK], [], [], 0, 0⟩
  | some (lb, r1) =>
    let dataLength := le32 lb
    if dataLength = 0 ∨ dataLength > BOOT_MAX_DATA_SIZE then ⟨.error, [BOOT_NACK], r1, [], 0, 0⟩
    else
      match recvN 4 r1 with
      | none => ⟨.timeout, [BOOT_NACK], [], [], 0, 0⟩
      | some (ab, r2) =>
        let address := le32 ab
        match recvChunksF dataLength dataLength r2 with
        | none => ⟨.timeout, [BOOT_NACK], [], [], 0, 0⟩
        | some (payload, r3) =>
          match recvN 2 r3 with
          | none => ⟨.timeout, [BOOT_NACK], [], [], 0, 0⟩
          | some (cb, r4) =>
            if le16 cb ≠ BOOT_CalculateCRC16 payload then
              ⟨.crcErr, [BOOT_NACK], r4, [], 0, 0⟩
            else if fl.writeOk address payload then
              ⟨.ok, [BOOT_ACK], r4, [.fwrite address payload], dataLength, 0⟩
            else ⟨.error, [BOOT_NACK], r4, [.fwrite address payload], 0, 0⟩

/-- Embedding of `BOOT_HandleRead` (uart_bootloader.c lines 196-258). -/
def BOOT_HandleRead (fl : Flash) (inp : List Nat) : BootRes :=
  match recvN 4 inp with
  | none => ⟨.timeout, [BOOT_NACK], [], [], 0, 0⟩
  | some (lb, r1) =>
    let dataLength := le32 lb
    if dataLength = 0 ∨ dataLength > BOOT_MAX_DATA_SIZE then ⟨.error, [BOOT_NACK], r1, [], 0, 0⟩
    else
      match recvN 4 r1 with
      | none => ⟨.timeout, [BOOT_NACK], [], [], 0, 0⟩
      | some (ab, r2) =>
        let address := le32 ab
        match fl.readRes address dataLength with
        | none => ⟨.error, [BOOT_NACK], r2, [.fread address dataLength], 0, 0⟩
        | some data =>
          let crc := BOOT_CalculateCRC16 data
          ⟨.ok, BOOT_ACK :: (data ++ [crc &&& 0xFF, (crc >>> 8) &&& 0xFF]), r2,
            [.fread address dataLength], 0, dataLength⟩

/-- Embedding of `BOOT_HandleEraseSector` (uart_bootloader.c lines 265-290). -/
def BOOT_HandleEraseSector (fl : Flash) (inp : List Nat) : BootRes :=
  match recvN 4 inp with
  | none => ⟨.timeout, [BOOT_NACK], [], [], 0, 0⟩
  | some (ab, r1) =>
    let address := le32 ab
    if fl.eraseSectorOk address then ⟨.ok, [BOOT_ACK], r1, [.feraseSector address], 0, 0⟩
    else ⟨.error, [BOOT_NACK], r1, [.feraseSector address], 0, 0⟩

/-- Embedding of `BOOT_HandleEraseChip` (uart_bootloader.c lines 297-310). -/
def BOOT_HandleEraseChip (fl : Flash) (inp : List Nat) : BootRes :=
  if fl.eraseChipOk then ⟨.ok, [BOOT_ACK], inp, [.feraseChip], 0, 0⟩
  else ⟨.error, [BOOT_NACK], inp, [.feraseChip], 0, 0⟩

/-- Embedding of `BOOT_HandleGetInfo` (uart_bootloader.c lines 317-368):
13-byte info record (IDs, JEDEC ID, then capacity / page size / sector size
little-endian, extracted byte-by-byte exactly as the C code does). -/
def BOOT_HandleGetInfo (fl : Flash) (inp : List Nat) : BootRes :=
  match fl.idRes with
  | none => ⟨.error, [BOOT_NACK], inp, [.freadID], 0, 0⟩
  | some (m, d) =>
    match fl.jedecRes with
    | none => ⟨.error, [BOOT_NACK], inp, [.freadID, .freadJEDEC], 0, 0⟩
    | some (j0, j1, j2) =>
      ⟨.ok,
        BOOT_ACK ::
          [m, d, j0, j1, j2,
           W25Q128_TOTAL_SIZE &&& 0xFF, (W25Q128_TOTAL_SIZE >>> 8) &&& 0xFF,
           (W25Q128_TOTAL_SIZE >>> 16) &&& 0xFF, (W25Q128_TOTAL_SIZE >>> 24) &&& 0xFF,
           W25Q128_PAGE_SIZE &&& 0xFF, (W25Q128_PAGE_SIZE >>> 8) &&& 0xFF,
           W25Q128_SECTOR_SIZE &&& 0xFF, (W25Q128_SECTOR_SIZE >>> 8) &&& 0xFF],
        inp, [.freadID, .freadJEDEC], 0, 0⟩

/-- Embedding of `BOOT_Process` (uart_bootloader.c lines 375-426): one
iteration of the command loop.  `none` models blocking forever on the two
start-marker bytes. -/
def BOOT_Process (fl : Flash) (inp : List Nat) : Option BootRes :=
  match recvN 2 inp with
  | none => none
  | some (h, r1) =>
    if h.getD 0 0 ≠ 0xAA ∨ h.getD 1 0 ≠ 0x55 then some ⟨.ok, [], r1, [], 0, 0⟩
    else
      match recvN 1 r1 with
      | none => some ⟨.timeout, [BOOT_NACK], [], [], 0, 0⟩
      | some (cb, r2) =>
        let c := cb.getD 0 0
        if c = 0x01 then some (BOOT_HandleWrite fl r2)
        else if c = 0x02 then some (BOOT_HandleRead fl r2)
        else if c = 0x03 then some (BOOT_HandleEraseSector fl r2)
        else if c = 0x04 then some (BOOT_HandleEraseChip fl r2)
        else if c = 0x05 then some (BOOT_HandleGetInfo fl r2)
        else some ⟨.error, [BOOT_NACK], r2, [], 0, 0⟩

/-- Repeated `BOOT_Process` iterations over an input stream, accumulating
the UART output and the flash operations, stopping when the engine blocks
on the start markers (or when the fuel runs out). -/
def BOOT_Session (fl : Flash) : Nat → List Nat → List Nat × List FlashOp
  | 0, _ => ([], [])
  | fuel + 1, inp =>
    match BOOT_Process fl inp with
    | none => ([], [])
    | some r =>
      let s := BOOT_Session fl fuel r.rest
      (r.out ++ s.1, r.ops ++ s.2)

/-! ### Stream decomposition lemmas -/

theorem recvN_exact (n : Nat) (p r : List Nat) (hp : p.length = n) :
    recvN n (p ++ r) = some (p, r) := by
  subst hp
  rw [recvN, if_pos (by simp)]
  rw [List.take_left, List.drop_left]

theorem recvChunksF_exact :
    ∀ (fuel n : Nat) (p r : List Nat), p.length = n → n ≤ fuel →
      recvChunksF fuel n (p ++ r) = some (p, r) := by
  intro fuel
  induction fuel with
  | zero =>
    intro n p r hp hn
    have : n = 0 := by omega
    subst this
    rw [recvChunksF, if_pos rfl]
    rw [List.length_eq_zero] at hp
    subst hp
    rfl
  | succ f ih =>
    intro n p r hp hn
    by_cases h0 : n = 0
    · subst h0
      rw [recvChunksF, if_pos rfl]
      rw [List.length_eq_zero] at hp
      subst hp
      rfl
    · rw [recvChunksF, if_neg h0]
      simp only [BOOT_BUFFER_SIZE]
      have hch : min 256 n ≤ n := Nat.min_le_right _ _
      have hch1 : 1 ≤ min 256 n := by omega
      have hsplit : p ++ r = p.take (min 256 n) ++ (p.drop (min 256 n) ++ r) := by
        rw [← List.append_assoc, List.take_append_drop]
      rw [hsplit, recvN_exact _ _ _ (by rw [List.length_take]; omega)]
      dsimp only
      rw [ih (n - min 256 n) (p.drop (min 256 n)) r
        (by rw [List.length_drop]; omega) (by omega)]
      dsimp only
      rw [List.take_append_drop]

/-! ### WRITE with invalid length (C8) -/

/-- C8: a WRITE command whose 4-byte little-endian length field decodes to 0
or above 4096 is answered by the single NACK byte `0x1F` right after the
length validation: the remaining stream (starting with the would-be address
bytes) is left unconsumed and no flash operation is invoked. -/
theorem BOOT_HandleWrite_badLength (fl : Flash) (lb r : List Nat)
    (hlb : lb.length = 4) (hbad : le32 lb = 0 ∨ le32 lb > 4096) :
    BOOT_HandleWrite fl (lb ++ r) = ⟨.error, [BOOT_NACK], r, [], 0, 0⟩ := by
  rw [BOOT_HandleWrite, recvN_exact _ _ _ hlb]
  dsimp only
  rw [if_pos (by simpa [BOOT_MAX_DATA_SIZE] using hbad)]

/-- Witness for C8: length field `0x1001` (4097), with four sentinel
address bytes left untouched in the remaining stream. -/
theorem BOOT_HandleWrite_badLength_witness :
    ([0x01, 0x10, 0x00, 0x00] : List Nat).length = 4 ∧
    (le32 [0x01, 0x10, 0x00, 0x00] = 0 ∨ le32 [0x01, 0x10, 0x00, 0x00] > 4096) ∧
    BOOT_HandleWrite ⟨none, none, fun _ _ => true, fun _ _ => none, fun _ => true, true⟩
        ([0x01, 0x10, 0x00, 0x00] ++ [0xDE, 0xAD, 0xBE, 0xEF]) =
      ⟨.error, [BOOT_NACK], [0xDE, 0xAD, 0xBE, 0xEF], [], 0, 0⟩ :=
  ⟨rfl, by right; decide,
   BOOT_HandleWrite_badLength _ [0x01, 0x10, 0x00, 0x00] [0xDE, 0xAD, 0xBE, 0xEF] rfl
     (by right; decide)⟩

/-! ### READ with invalid length (C10) -/

/-- C10: a READ command whose 4-byte little-endian length field decodes to 0
or above 4096 is answered by the single NACK byte `0x1F` before the four
address bytes are consumed, and no flash operation is invoked — the READ
handler enforces the same length bounds as WRITE. -/
theorem BOOT_HandleRead_badLength (fl : Flash) (lb r : List Nat)
    (hlb : lb.length = 4) (hbad : le32 lb = 0 ∨ le32 lb > 4096) :
    BOOT_HandleRead fl (lb ++ r) = ⟨.error, [BOOT_NACK], r, [], 0, 0⟩ := by
  rw [BOOT_HandleRead, recvN_exact _ _ _ hlb]
  dsimp only
  rw [if_pos (by simpa [BOOT_MAX_DATA_SIZE] using hbad)]

/-- Witness for C10: length field 0, with four sentinel address bytes left
untouched in the remaining stream. -/
theorem BOOT_HandleRead_badLength_witness :
    ([0x00, 0x00, 0x00, 0x00] : List Nat).length = 4 ∧
    (le32 [0x00, 0x00, 0x00, 0x00] = 0 ∨ le32 [0x00, 0x00, 0x00, 0x00] > 4096) ∧
    BOOT_HandleRead ⟨none, none, fun _ _ => true, fun _ _ => none, fun _ => true, true⟩
        ([0x00, 0x00, 0x00, 0x00] ++ [0x01, 0x02, 0x03, 0x04]) =
      ⟨.error, [BOOT_NACK], [0x01, 0x02, 0x03, 0x04], [], 0, 0⟩ :=
  ⟨rfl, by left; decide,
   BOOT_HandleRead_badLength _ [0x00, 0x00, 0x00, 0x00] [0x01, 0x02, 0x03, 0x04] rfl
     (by left; decide)⟩

/-! ### WRITE with bad CRC (C4) -/

/-- C4: a WRITE command whose trailing 2-byte CRC does not match the CRC-16
of the received payload is answered by the single NACK byte `0x1F`;
`total_bytes_written` is not incremented and no flash-write operation is
invoked. -/
theorem BOOT_HandleWrite_badCRC (fl : Flash) (lb ab p cb r : List Nat)
    (hlb : lb.length = 4) (hab : ab.length = 4) (hcb : cb.length = 2)
    (hpos : 0 < le32 lb) (hmax : le32 lb ≤ 4096) (hp : p.length = le32 lb)
    (hcrc : le16 cb ≠ BOOT_CalculateCRC16 p) :
    BOOT_HandleWrite fl (lb ++ (ab ++ (p ++ (cb ++ r)))) =
      ⟨.crcErr, [BOOT_NACK], r, [], 0, 0⟩ := by
  rw [BOOT_HandleWrite, recvN_exact _ _ _ hlb]
  dsimp only
  rw [if_neg (by simp only [BOOT_MAX_DATA_SIZE]; omega)]
  rw [recvN_exact _ _ _ hab]
  dsimp only
  rw [recvChunksF_exact _ _ _ _ hp le_rfl]
  dsimp only
  rw [recvN_exact _ _ _ hcb]
  dsimp only
  rw [if_pos hcrc]

/-- Witness for C4: a one-byte payload `[0x42]` with a deliberately wrong
CRC trailer `00 00`. -/
theorem BOOT_HandleWrite_badCRC_witness :
    ([0x01, 0x00, 0x00, 0x00] : List Nat).length = 4 ∧
    ([0x10, 0x00, 0x00, 0x00] : List Nat).length = 4 ∧
    ([0x00, 0x00] : List Nat).length = 2 ∧
    0 < le32 [0x01, 0x00, 0x00, 0x00] ∧
    le32 [0x01, 0x00, 0x00, 0x00] ≤ 4096 ∧
    ([0x42] : List Nat).length = le32 [0x01, 0x00, 0x00, 0x00] ∧
    le16 [0x00, 0x00] ≠ BOOT_CalculateCRC16 [0x42] ∧
    BOOT_HandleWrite ⟨none, none, fun _ _ => true, fun _ _ => none, fun _ => true, true⟩
        ([0x01, 0x00, 0x00, 0x00] ++ ([0x10, 0x00, 0x00, 0x00] ++ ([0x42] ++ ([0x00, 0x00] ++ [])))) =
      ⟨.crcErr, [BOOT_NACK], [], [], 0, 0⟩ :=
  ⟨rfl, rfl, rfl, by decide, by decide, by decide, by decide,
   BOOT_HandleWrite_badCRC _ [0x01, 0x00, 0x00, 0x00] [0x10, 0x00, 0x00, 0x00] [0x42]
     [0x00, 0x00] [] rfl rfl rfl (by decide) (by decide) (by decide) (by decide)⟩

/-! ### GET_INFO response bytes (C2) -/

/-- Demonstration flash oracle: a W25Q128 that reports manufacturer/device
IDs `(0xEF, 0x17)` and JEDEC ID `EF 40 18`, and succeeds on every
operation. -/
def flDemo : Flash :=
  ⟨some (0xEF, 0x17), some (0xEF, 0x40, 0x18), fun _ _ => true,
   fun _ n => some (List.replicate n 0), fun _ => true, true⟩

/-- Counterexample for C2: with the driver reporting IDs `(0xEF, 0x17)` and
JEDEC `EF 40 18`, the GET_INFO handler transmits the 14 bytes
`79 EF 17 EF 40 18 00 00 00 01 00 01 00 10` (ACK plus 13-byte info block),
which is not the 15-byte sequence `79 EF 17 EF 40 18 00 00 00 01 00 01 10
00 10` stated by the claim. -/
theorem BOOT_HandleGetInfo_cex :
    (BOOT_HandleGetInfo flDemo []).out =
      [0x79, 0xEF, 0x17, 0xEF, 0x40, 0x18, 0x00, 0x00, 0x00, 0x01, 0x00, 0x01, 0x00, 0x10] ∧
    (BOOT_HandleGetInfo flDemo []).out ≠
      [0x79, 0xEF, 0x17, 0xEF, 0x40, 0x18, 0x00, 0x00, 0x00, 0x01, 0x00, 0x01, 0x10, 0x00, 0x10] := by
  constructor
  · decide
  · decide

/-- C2 (amended): for a GET_INFO command on the W25Q128 variant, when the
driver returns manufacturer/device IDs and a 3-byte JEDEC ID, the bytes
transmitted to the host are exactly ACK `0x79` followed by the 13-byte info
block: the two IDs, the JEDEC ID, capacity `0x01000000` little-endian
(`00 00 00 01`), page size `0x0100` little-endian (`00 01`), and sector
size `0x1000` little-endian (`00 10`) — 14 bytes in total. -/
theorem BOOT_HandleGetInfo_bytes (fl : Flash) (inp : List Nat) (m d j0 j1 j2 : Nat)
    (hid : fl.idRes = some (m, d)) (hj : fl.jedecRes = some (j0, j1, j2)) :
    (BOOT_HandleGetInfo fl inp).out =
      [0x79, m, d, j0, j1, j2, 0x00, 0x00, 0x00, 0x01, 0x00, 0x01, 0x00, 0x10] := by
  rw [BOOT_HandleGetInfo, hid]
  dsimp only
  rw [hj]
  norm_num [W25Q128_TOTAL_SIZE, W25Q128_PAGE_SIZE, W25Q128_SECTOR_SIZE, BOOT_ACK]
  decide

/-- Witness for C2's amended claim at the IDs of scenario S1. -/
theorem BOOT_HandleGetInfo_bytes_witness :
    flDemo.idRes = some (0xEF, 0x17) ∧ flDemo.jedecRes = some (0xEF, 0x40, 0x18) ∧
    (BOOT_HandleGetInfo flDemo []).out =
      [0x79, 0xEF, 0x17, 0xEF, 0x40, 0x18, 0x00, 0x00, 0x00, 0x01, 0x00, 0x01, 0x00, 0x10] :=
  ⟨rfl, rfl, BOOT_HandleGetInfo_bytes flDemo [] 0xEF 0x17 0xEF 0x40 0x18 rfl rfl⟩

/-! ### Framing resync (C3) -/

/-- Counterexample for C3: the engine receives the two start-marker bytes as
one pair, so a single non-marker prefix byte (`0x00`) misaligns the frame —
the stream `00 AA 55 05` produces no output at all and executes nothing
(each two-byte pair fails the marker check and is silently discarded),
whereas the same well-formed GET_INFO frame without the prefix is answered
with ACK plus the info block. -/
theorem BOOT_Process_resync_cex :
    BOOT_Session flDemo 5 [0x00, 0xAA, 0x55, 0x05] = ([], []) ∧
    BOOT_Session flDemo 5 [0xAA, 0x55, 0x05] =
      ([0x79, 0xEF, 0x17, 0xEF, 0x40, 0x18, 0x00, 0x00, 0x00, 0x01, 0x00, 0x01, 0x00, 0x10],
       [.freadID, .freadJEDEC]) := by
  constructor
  · decide
  · decide

/-- C3 (amended): an arbitrary prefix of non-marker bytes of even length
before `AA 55 …` is silently discarded, two bytes per engine iteration,
without emitting any ACK or NACK byte; the session then behaves exactly as
it would on the stream without the prefix (so the subsequent command is
parsed and executed correctly). -/
theorem BOOT_Process_resync_even (fl : Flash) :
    ∀ (n : Nat) (p : List Nat) (k : Nat) (s : List Nat),
      p.length = 2 * n → (∀ b ∈ p, b ≠ 0xAA ∧ b ≠ 0x55) →
      BOOT_Session fl (n + k) (p ++ s) = BOOT_Session fl k s := by
  intro n
  induction n with
  | zero =>
    intro p k s hp _
    rw [Nat.mul_zero, List.length_eq_zero] at hp
    subst hp
    rw [Nat.zero_add, List.nil_append]
  | succ m ih =>
    intro p k s hp hnm
    match p, hp with
    | a :: b :: t, hp =>
      have ha : a ≠ 0xAA := (hnm a (by simp)).1
      have h2 : recvN 2 (a :: b :: (t ++ s)) = some ([a, b], t ++ s) := by
        rw [recvN, if_pos (by simp)]
        rfl
      have hrec : BOOT_Process fl (a :: b :: (t ++ s)) = some ⟨.ok, [], t ++ s, [], 0, 0⟩ := by
        rw [BOOT_Process, h2]
        dsimp only
        rw [if_pos (Or.inl (by simpa using ha))]
      have hfuel : m + 1 + k = (m + k) + 1 := by omega
      rw [hfuel, List.cons_append, List.cons_append, BOOT_Session, hrec]
      dsimp only
      rw [ih t k s (by simp only [List.length_cons] at hp; omega)
        (fun x hx => hnm x (by simp [hx]))]
      simp

/-- Witness for C3's amended claim: a two-byte non-marker prefix `01 02`
before a GET_INFO frame leaves the session output unchanged. -/
theorem BOOT_Process_resync_even_witness :
    ([0x01, 0x02] : List Nat).length = 2 * 1 ∧
    (∀ b ∈ ([0x01, 0x02] : List Nat), b ≠ 0xAA ∧ b ≠ 0x55) ∧
    BOOT_Session flDemo (1 + 2) ([0x01, 0x02] ++ [0xAA, 0x55, 0x05]) =
      BOOT_Session flDemo 2 [0xAA, 0x55, 0x05] :=
  ⟨rfl, by decide,
   BOOT_Process_resync_even flDemo 1 [0x01, 0x02] 2 [0xAA, 0x55, 0x05] rfl (by decide)⟩

/-! ### SPI transaction trace model (`w25q128.c`)

Each driver operation is embedded as a generator of the sequence of
chip-select and SPI byte events it performs, driven by an oracle that
decides the outcome of each `HAL_SPI_Transmit` / `HAL_SPI_Receive` call and
the continuation of the busy-poll loop. -/

/-- Chip-select and SPI events emitted by a driver operation. -/
inductive SpiEv where
  | csLow
  | csHigh
  | tx (bs : List Nat)
  | rx (n : Nat)
deriving DecidableEq

/-- Oracle for the SPI transport: `ok k` is the outcome of the `k`-th SPI
primitive call of the operation; `keepBusy k` decides whether the busy-poll
loop continues after the read ending at call index `k` (status BUSY and
deadline not exceeded); `waitRes k` is the final poll verdict (true = OK,
false = timeout). -/
structure SpiOracle where
  ok : Nat → Bool
  keepBusy : Nat → Bool
  waitRes : Nat → Bool

/-- Result of a driver primitive: success flag, emitted event trace, and
next SPI call index. -/
structure PrimRes where
  succ : Bool
  tr : List SpiEv
  kNext : Nat

/-- `W25Q128_WriteEnable` (w25q128.c lines 587-602): CS low, transmit opcode
`0x06`, CS high on both the success and the failure path. -/
def trWriteEnable (o : SpiOracle) (k : Nat) : PrimRes :=
  ⟨o.ok k, [.csLow, .tx [0x06], .csHigh], k + 1⟩

/-- `W25Q128_WriteDisable` (w25q128.c lines 609-624). -/
def trWriteDisable (o : SpiOracle) (k : Nat) : PrimRes :=
  ⟨o.ok k, [.csLow, .tx [0x04], .csHigh], k + 1⟩

/-- `W25Q128_PowerDown` (w25q128.c lines 853-868). -/
def trPowerDown (o : SpiOracle) (k : Nat) : PrimRes :=
  ⟨o.ok k, [.csLow, .tx [0xB9], .csHigh], k + 1⟩

/-- `W25Q128_WakeUp` (w25q128.c lines 875-892). -/
def trWakeUp (o : SpiOracle) (k : Nat) : PrimRes :=
  ⟨o.ok k, [.csLow, .tx [0xAB], .csHigh], k + 1⟩

/-- `W25Q128_ReadStatusRegister` (w25q128.c lines 532-553): transmit opcode
`0x05`, then receive one byte; CS released on every path. -/
def trReadStatus (o : SpiOracle) (k : Nat) : PrimRes :=
  if o.ok k then ⟨o.ok (k + 1), [.csLow, .tx [0x05], .rx 1, .csHigh], k + 2⟩
  else ⟨false, [.csLow, .tx [0x05], .csHigh], k + 1⟩

/-- `W25Q128_ReadID` (w25q128.c lines 470-495): transmit `90 00 00 00`, then
receive two bytes. -/
def trReadID (o : SpiOracle) (k : Nat) : PrimRes :=
  if o.ok k then ⟨o.ok (k + 1), [.csLow, .tx [0x90, 0x00, 0x00, 0x00], .rx 2, .csHigh], k + 2⟩
  else ⟨false, [.csLow, .tx [0x90, 0x00, 0x00, 0x00], .csHigh], k + 1⟩

/-- `W25Q128_ReadJEDECID` (w25q128.c lines 503-524): transmit `9F`, then
receive three bytes. -/
def trReadJEDEC (o : SpiOracle) (k : Nat) : PrimRes :=
  if o.ok k then ⟨o.ok (k + 1), [.csLow, .tx [0x9F], .rx 3, .csHigh], k + 2⟩
  else ⟨false, [.csLow, .tx [0x9F], .csHigh], k + 1⟩

/-- Opcode plus 24-bit big-endian address, as assembled into `cmd[4]`. -/
def addr24 (c a : Nat) : List Nat :=
  [c, (a >>> 16) &&& 0xFF, (a >>> 8) &&& 0xFF, a &&& 0xFF]

/-- `W25Q128_Read` (w25q128.c lines 634-660): transmit `03` + address, then
receive `len` bytes. -/
def trReadData (o : SpiOracle) (a len k : Nat) : PrimRes :=
  if o.ok k then ⟨o.ok (k + 1), [.csLow, .tx (addr24 0x03 a), .rx len, .csHigh], k + 2⟩
  else ⟨false, [.csLow, .tx (addr24 0x03 a), .csHigh], k + 1⟩

/-- The `W25Q128_WaitForWriteEnd` loop at the trace level: each iteration is
one `trReadStatus` transaction; the oracle decides whether the loop
continues (status BUSY within the deadline) and the final verdict. -/
def trWait (o : SpiOracle) : Nat → Nat → PrimRes
  | 0, k => ⟨true, [], k⟩
  | fuel + 1, k =>
    let p := trReadStatus o k
    if p.succ then
      if o.keepBusy p.kNext then
        let q := trWait o fuel p.kNext
        ⟨q.succ, p.tr ++ q.tr, q.kNext⟩
      else ⟨o.waitRes p.kNext, p.tr, p.kNext⟩
    else ⟨false, p.tr, p.kNext⟩

/-- `W25Q128_WritePage` (w25q128.c lines 670-708): length check, write
enable, `02` + address, data bytes, CS high, then busy-poll.  Every failure
path releases CS before returning. -/
def trWritePage (o : SpiOracle) (a : Nat) (buf : List Nat) (fuel k : Nat) : PrimRes :=
  if buf.length > W25Q128_PAGE_SIZE then ⟨false, [], k⟩
  else
    let we := trWriteEnable o k
    if we.succ then
      if o.ok we.kNext then
        if o.ok (we.kNext + 1) then
          let w := trWait o fuel (we.kNext + 2)
          ⟨w.succ, we.tr ++ [.csLow, .tx (addr24 0x02 a), .tx buf, .csHigh] ++ w.tr, w.kNext⟩
        else ⟨false, we.tr ++ [.csLow, .tx (addr24 0x02 a), .tx buf, .csHigh], we.kNext + 2⟩
      else ⟨false, we.tr ++ [.csLow, .tx (addr24 0x02 a), .csHigh], we.kNext + 1⟩
    else ⟨false, we.tr, we.kNext⟩

/-- The `W25Q128_Write` loop at the trace level: successive `trWritePage`
calls on page-bounded chunks, stopping at the first failure.  The first
fuel argument feeds the busy-polls; the second (instantiated with
`buf.length`) bounds the chunk loop. -/
def trWriteMulti (o : SpiOracle) (fuel : Nat) : Nat → Nat → List Nat → Nat → List SpiEv × Nat
  | 0, _, _, k => ([], k)
  | g + 1, a, buf, k =>
    if buf.length = 0 then ([], k)
    else
      let wl := min (W25Q128_PAGE_SIZE - a % W25Q128_PAGE_SIZE) buf.length
      let p := trWritePage o a (buf.take wl) fuel k
      if p.succ then
        let q := trWriteMulti o fuel g ((a + wl) % 4294967296) (buf.drop wl) p.kNext
        (p.tr ++ q.1, q.2)
      else (p.tr, p.kNext)

/-- `W25Q128_EraseSector` (w25q128.c lines 755-782): write enable, `20` +
address, busy-poll. -/
def trEraseSector (o : SpiOracle) (a fuel k : Nat) : PrimRes :=
  let we := trWriteEnable o k
  if we.succ then
    if o.ok we.kNext then
      let w := trWait o fuel (we.kNext + 1)
      ⟨w.succ, we.tr ++ [.csLow, .tx (addr24 0x20 a), .csHigh] ++ w.tr, w.kNext⟩
    else ⟨false, we.tr ++ [.csLow, .tx (addr24 0x20 a), .csHigh], we.kNext + 1⟩
  else ⟨false, we.tr, we.kNext⟩

/-- `W25Q128_EraseBlock64KB` (w25q128.c lines 790-817): write enable, `D8` +
address, busy-poll. -/
def trEraseBlock (o : SpiOracle) (a fuel k : Nat) : PrimRes :=
  let we := trWriteEnable o k
  if we.succ then
    if o.ok we.kNext then
      let w := trWait o fuel (we.kNext + 1)
      ⟨w.succ, we.tr ++ [.csLow, .tx (addr24 0xD8 a), .csHigh] ++ w.tr, w.kNext⟩
    else ⟨false, we.tr ++ [.csLow, .tx (addr24 0xD8 a), .csHigh], we.kNext + 1⟩
  else ⟨false, we.tr, we.kNext⟩

/-- `W25Q128_EraseChip` (w25q128.c lines 824-846): write enable, single-byte
opcode `C7`, busy-poll. -/
def trEraseChip (o : SpiOracle) (fuel k : Nat) : PrimRes :=
  let we := trWriteEnable o k
  if we.succ then
    if o.ok we.kNext then
      let w := trWait o fuel (we.kNext + 1)
      ⟨w.succ, we.tr ++ [.csLow, .tx [0xC7], .csHigh] ++ w.tr, w.kNext⟩
    else ⟨false, we.tr ++ [.csLow, .tx [0xC7], .csHigh], we.kNext + 1⟩
  else ⟨false, we.tr, we.kNext⟩

/-- The driver operations of `w25q128.c`. -/
inductive DriverOp where
  | rdID
  | rdJEDEC
  | rdStatus
  | wrEnable
  | wrDisable
  | rdData (a len : Nat)
  | wrPage (a : Nat) (buf : List Nat)
  | wrMulti (a : Nat) (buf : List Nat)
  | eraseSec (a : Nat)
  | eraseBlk (a : Nat)
  | eraseAll
  | powerDn
  | wake

/-- The event trace a driver operation emits under a given SPI oracle (the
fuel bounds the busy-poll loops). -/
def opTrace (op : DriverOp) (o : SpiOracle) (fuel : Nat) : List SpiEv :=
  match op with
  | .rdID => (trReadID o 0).tr
  | .rdJEDEC => (trReadJEDEC o 0).tr
  | .rdStatus => (trReadStatus o 0).tr
  | .wrEnable => (trWriteEnable o 0).tr
  | .wrDisable => (trWriteDisable o 0).tr
  | .rdData a len => (trReadData o a len 0).tr
  | .wrPage a buf => (trWritePage o a buf fuel 0).tr
  | .wrMulti a buf => (trWriteMulti o fuel buf.length a buf 0).1
  | .eraseSec a => (trEraseSector o a fuel 0).tr
  | .eraseBlk a => (trEraseBlock o a fuel 0).tr
  | .eraseAll => (trEraseChip o fuel 0).tr
  | .powerDn => (trPowerDown o 0).tr
  | .wake => (trWakeUp o 0).tr

/-- Chip-select discipline checker: starting from assertion state `b`,
returns the final state if every byte event happens while CS is asserted
and CS transitions alternate; `none` on any violation.  A trace `t`
satisfies the discipline exactly when `csRun false t = some false`. -/
def csRun : Bool → List SpiEv → Option Bool
  | b, [] => some b
  | b, .csLow :: r => if b then none else csRun true r
  | b, .csHigh :: r => if b then csRun false r else none
  | b, .tx _ :: r => if b then csRun b r else none
  | b, .rx _ :: r => if b then csRun b r else none

/-- The opcode of each CS-framed transaction: the first transmitted byte
after each CS assertion. -/
def cmdStream : List SpiEv → List Nat
  | [] => []
  | .csLow :: .tx (b :: _) :: r => b :: cmdStream r
  | _ :: r => cmdStream r

/-- Program and erase opcodes, which require a preceding write enable. -/
def progEraseCmd (c : Nat) : Bool :=
  c == 0x02 || c == 0x20 || c == 0xD8 || c == 0xC7

/-- Write-enable pairing checker over a transaction opcode stream.  The
state records whether the previous opcode was `0x06`; a program/erase
opcode is accepted only directly after a single `0x06` (doubled write
enables are rejected).  `none` on violation, otherwise the final state. -/
def weRun : Bool → List Nat → Option Bool
  | prev, [] => some prev
  | prev, c :: r =>
    if progEraseCmd c then (if prev then weRun false r else none)
    else if c == 0x06 then (if prev then none else weRun true r)
    else weRun false r

/-! ### Chip-select discipline (C6) -/

theorem csRun_append : ∀ (t1 t2 : List SpiEv) (b : Bool),
    csRun b (t1 ++ t2) = (csRun b t1).bind fun s => csRun s t2 := by
  intro t1
  induction t1 with
  | nil => intro t2 b; rfl
  | cons e r ih =>
    intro t2 b
    cases e <;> cases b <;> simp [csRun, ih]

theorem csRun_trReadStatus (o : SpiOracle) (k : Nat) :
    csRun false (trReadStatus o k).tr = some false := by
  rw [trReadStatus]
  cases h : o.ok k <;> rfl

theorem csRun_trReadID (o : SpiOracle) (k : Nat) :
    csRun false (trReadID o k).tr = some false := by
  rw [trReadID]
  cases h : o.ok k <;> rfl

theorem csRun_trReadJEDEC (o : SpiOracle) (k : Nat) :
    csRun false (trReadJEDEC o k).tr = some false := by
  rw [trReadJEDEC]
  cases h : o.ok k <;> rfl

theorem csRun_trReadData (o : SpiOracle) (a len k : Nat) :
    csRun false (trReadData o a len k).tr = some false := by
  rw [trReadData]
  cases h : o.ok k <;> rfl

theorem csRun_trWait (o : SpiOracle) :
    ∀ (fuel k : Nat), csRun false (trWait o fuel k).tr = some false := by
  intro fuel
  induction fuel with
  | zero => intro k; rfl
  | succ f ih =>
    intro k
    rw [trWait]
    dsimp only
    by_cases hs : (trReadStatus o k).succ = true
    · rw [if_pos hs]
      by_cases hb : o.keepBusy (trReadStatus o k).kNext = true
      · rw [if_pos hb]
        dsimp only
        rw [csRun_append, csRun_trReadStatus]
        exact ih _
      · rw [if_neg hb]
        exact csRun_trReadStatus o k
    · rw [if_neg hs]
      exact csRun_trReadStatus o k

theorem csRun_trWritePage (o : SpiOracle) (a : Nat) (buf : List Nat) (fuel k : Nat) :
    csRun false (trWritePage o a buf fuel k).tr = some false := by
  rw [trWritePage]
  by_cases hl : buf.length > W25Q128_PAGE_SIZE
  · rw [if_pos hl]
    rfl
  · rw [if_neg hl]
    dsimp only [trWriteEnable]
    by_cases h1 : o.ok k = true
    · rw [if_pos h1]
      by_cases h2 : o.ok (k + 1) = true
      · rw [if_pos h2]
        by_cases h3 : o.ok (k + 1 + 1) = true
        · rw [if_pos h3]
          dsimp only
          rw [csRun_append]
          rw [show csRun false ([SpiEv.csLow, SpiEv.tx [0x06], SpiEv.csHigh] ++
            [SpiEv.csLow, SpiEv.tx (addr24 0x02 a), SpiEv.tx buf, SpiEv.csHigh]) = some false from rfl]
          exact csRun_trWait o fuel _
        · rw [if_neg h3]
          rfl
      · rw [if_neg h2]
        rfl
    · rw [if_neg h1]
      rfl

theorem csRun_trWriteMulti (o : SpiOracle) (fuel : Nat) :
    ∀ (g a : Nat) (buf : List Nat) (k : Nat),
      csRun false (trWriteMulti o fuel g a buf k).1 = some false := by
  intro g
  induction g with
  | zero => intro a buf k; rfl
  | succ g ih =>
    intro a buf k
    rw [trWriteMulti]
    by_cases h0 : buf.length = 0
    · rw [if_pos h0]
      rfl
    · rw [if_neg h0]
      dsimp only
      by_cases hs : (trWritePage o a
          (buf.take (min (W25Q128_PAGE_SIZE - a % W25Q128_PAGE_SIZE) buf.length)) fuel k).succ = true
      · rw [if_pos hs]
        dsimp only
        rw [csRun_append, csRun_trWritePage]
        exact ih _ _ _
      · rw [if_neg hs]
        exact csRun_trWritePage o a _ fuel k

theorem csRun_trEraseSector (o : SpiOracle) (a fuel k : Nat) :
    csRun false (trEraseSector o a fuel k).tr = some false := by
  rw [trEraseSector]
  dsimp only [trWriteEnable]
  by_cases h1 : o.ok k = true
  · rw [if_pos h1]
    by_cases h2 : o.ok (k + 1) = true
    · rw [if_pos h2]
      dsimp only
      rw [csRun_append]
      rw [show csRun false ([SpiEv.csLow, SpiEv.tx [0x06], SpiEv.csHigh] ++
        [SpiEv.csLow, SpiEv.tx (addr24 0x20 a), SpiEv.csHigh]) = some false from rfl]
      exact csRun_trWait o fuel _
    · rw [if_neg h2]
      rfl
  · rw [if_neg h1]
    rfl

theorem csRun_trEraseBlock (o : SpiOracle) (a fuel k : Nat) :
    csRun false (trEraseBlock o a fuel k).tr = some false := by
  rw [trEraseBlock]
  dsimp only [trWriteEnable]
  by_cases h1 : o.ok k = true
  · rw [if_pos h1]
    by_cases h2 : o.ok (k + 1) = true
    · rw [if_pos h2]
      dsimp only
      rw [csRun_append]
      rw [show csRun false ([SpiEv.csLow, SpiEv.tx [0x06], SpiEv.csHigh] ++
        [SpiEv.csLow, SpiEv.tx (addr24 0xD8 a), SpiEv.csHigh]) = some false from rfl]
      exact csRun_trWait o fuel _
    · rw [if_neg h2]
      rfl
  · rw [if_neg h1]
    rfl

theorem csRun_trEraseChip (o : SpiOracle) (fuel k : Nat) :
    csRun false (trEraseChip o fuel k).tr = some false := by
  rw [trEraseChip]
  dsimp only [trWriteEnable]
  by_cases h1 : o.ok k = true
  · rw [if_pos h1]
    by_cases h2 : o.ok (k + 1) = true
    · rw [if_pos h2]
      dsimp only
      rw [csRun_append]
      rw [show csRun false ([SpiEv.csLow, SpiEv.tx [0x06], SpiEv.csHigh] ++
        [SpiEv.csLow, SpiEv.tx [0xC7], SpiEv.csHigh]) = some false from rfl]
      exact csRun_trWait o fuel _
    · rw [if_neg h2]
      rfl
  · rw [if_neg h1]
    rfl

/-- C6: every driver operation, under every outcome of the SPI transport
(including failure at any intermediate call), emits a trace in which
chip-select is asserted before the first byte of each transaction, every
SPI byte exchange happens while chip-select is asserted, and chip-select is
released exactly once per assertion before the operation returns. -/
theorem W25Q128_csDiscipline (op : DriverOp) (o : SpiOracle) (fuel : Nat) :
    csRun false (opTrace op o fuel) = some false := by
  cases op with
  | rdID => exact csRun_trReadID o 0
  | rdJEDEC => exact csRun_trReadJEDEC o 0
  | rdStatus => exact csRun_trReadStatus o 0
  | wrEnable => rfl
  | wrDisable => rfl
  | rdData a len => exact csRun_trReadData o a len 0
  | wrPage a buf => exact csRun_trWritePage o a buf fuel 0
  | wrMulti a buf => exact csRun_trWriteMulti o fuel buf.length a buf 0
  | eraseSec a => exact csRun_trEraseSector o a fuel 0
  | eraseBlk a => exact csRun_trEraseBlock o a fuel 0
  | eraseAll => exact csRun_trEraseChip o fuel 0
  | powerDn => rfl
  | wake => rfl

/-! ### Write-enable pairing (C7) -/

theorem weRun_append : ∀ (l1 l2 : List Nat) (s : Bool),
    weRun s (l1 ++ l2) = (weRun s l1).bind fun s2 => weRun s2 l2 := by
  intro l1
  induction l1 with
  | nil => intro l2 s; rfl
  | cons c r ih =>
    intro l2 s
    rw [List.cons_append]
    simp only [weRun]
    by_cases hp : progEraseCmd c = true
    · rw [if_pos hp, if_pos hp]
      cases s
      · rfl
      · exact ih l2 false
    · rw [if_neg hp, if_neg hp]
      by_cases h6 : (c == 0x06) = true
      · rw [if_pos h6, if_pos h6]
        cases s
        · exact ih l2 true
        · rfl
      · rw [if_neg h6, if_neg h6]
        exact ih l2 false

theorem cmdStream_trReadStatus_append (o : SpiOracle) (k : Nat) (rest : List SpiEv) :
    cmdStream ((trReadStatus o k).tr ++ rest) = 0x05 :: cmdStream rest := by
  rw [trReadStatus]
  cases h : o.ok k <;> rfl

theorem cmdStream_trReadStatus (o : SpiOracle) (k : Nat) :
    cmdStream (trReadStatus o k).tr = [0x05] := by
  rw [trReadStatus]
  cases h : o.ok k <;> rfl

theorem cmdStream_trWait_append (o : SpiOracle) :
    ∀ (fuel k : Nat) (rest : List SpiEv),
      cmdStream ((trWait o fuel k).tr ++ rest) =
        cmdStream (trWait o fuel k).tr ++ cmdStream rest := by
  intro fuel
  induction fuel with
  | zero => intro k rest; rfl
  | succ f ih =>
    intro k rest
    rw [trWait]
    dsimp only
    by_cases hs : (trReadStatus o k).succ = true
    · rw [if_pos hs]
      by_cases hb : o.keepBusy (trReadStatus o k).kNext = true
      · rw [if_pos hb]
        dsimp only
        rw [List.append_assoc, cmdStream_trReadStatus_append, ih, cmdStream_trReadStatus_append]
        rfl
      · rw [if_neg hb]
        dsimp only
        rw [cmdStream_trReadStatus_append, cmdStream_trReadStatus]
        rfl
    · rw [if_neg hs]
      dsimp only
      rw [cmdStream_trReadStatus_append, cmdStream_trReadStatus]
      rfl

theorem weRun_trWait (o : SpiOracle) :
    ∀ (fuel k : Nat), weRun false (cmdStream (trWait o fuel k).tr) = some false := by
  intro fuel
  induction fuel with
  | zero => intro k; rfl
  | succ f ih =>
    intro k
    rw [trWait]
    dsimp only
    by_cases hs : (trReadStatus o k).succ = true
    · rw [if_pos hs]
      by_cases hb : o.keepBusy (trReadStatus o k).kNext = true
      · rw [if_pos hb]
        dsimp only
        rw [cmdStream_trReadStatus_append]
        rw [show ∀ l, weRun false (0x05 :: l) = weRun false l from fun l => rfl]
        exact ih _
      · rw [if_neg hb]
        dsimp only
        rw [cmdStream_trReadStatus]
        rfl
    · rw [if_neg hs]
      dsimp only
      rw [cmdStream_trReadStatus]
      rfl

theorem cmdStream_trWritePage_append (o : SpiOracle) (a : Nat) (buf : List Nat)
    (fuel k : Nat) (rest : List SpiEv) :
    cmdStream ((trWritePage o a buf fuel k).tr ++ rest) =
      cmdStream (trWritePage o a buf fuel k).tr ++ cmdStream rest := by
  rw [trWritePage]
  by_cases hl : buf.length > W25Q128_PAGE_SIZE
  · rw [if_pos hl]
    rfl
  · rw [if_neg hl]
    dsimp only [trWriteEnable]
    by_cases h1 : o.ok k = true
    · rw [if_pos h1]
      by_cases h2 : o.ok (k + 1) = true
      · rw [if_pos h2]
        by_cases h3 : o.ok (k + 1 + 1) = true
        · rw [if_pos h3]
          dsimp only
          rw [List.append_assoc]
          rw [show ∀ s, cmdStream (([SpiEv.csLow, SpiEv.tx [0x06], SpiEv.csHigh] ++
            [SpiEv.csLow, SpiEv.tx (addr24 0x02 a), SpiEv.tx buf, SpiEv.csHigh]) ++ s) =
              0x06 :: 0x02 :: cmdStream s from fun s => rfl]
          rw [cmdStream_trWait_append]
          rfl
        · rw [if_neg h3]
          rfl
      · rw [if_neg h2]
        rfl
    · rw [if_neg h1]
      rfl

theorem weRun_trWritePage_succ (o : SpiOracle) (a : Nat) (buf : List Nat) (fuel k : Nat)
    (hs : (trWritePage o a buf fuel k).succ = true) :
    weRun false (cmdStream (trWritePage o a buf fuel k).tr) = some false := by
  rw [trWritePage] at hs ⊢
  by_cases hl : buf.length > W25Q128_PAGE_SIZE
  · rw [if_pos hl] at hs
    exact absurd hs (by simp)
  · rw [if_neg hl] at hs ⊢
    dsimp only [trWriteEnable] at hs ⊢
    by_cases h1 : o.ok k = true
    · rw [if_pos h1] at hs ⊢
      by_cases h2 : o.ok (k + 1) = true
      · rw [if_pos h2] at hs ⊢
        by_cases h3 : o.ok (k + 1 + 1) = true
        · rw [if_pos h3] at hs ⊢
          dsimp only
          rw [show ∀ s, cmdStream (([SpiEv.csLow, SpiEv.tx [0x06], SpiEv.csHigh] ++
            [SpiEv.csLow, SpiEv.tx (addr24 0x02 a), SpiEv.tx buf, SpiEv.csHigh]) ++ s) =
              0x06 :: 0x02 :: cmdStream s from fun s => rfl]
          rw [show ∀ l, weRun false (0x06 :: 0x02 :: l) = weRun false l from fun l => rfl]
          exact weRun_trWait o fuel _
        · rw [if_neg h3] at hs
          exact absurd hs (by simp)
      · rw [if_neg h2] at hs
        exact absurd hs (by simp)
    · rw [if_neg h1] at hs
      exact absurd hs (by simp)

theorem weRun_trWritePage_isSome (o : SpiOracle) (a : Nat) (buf : List Nat) (fuel k : Nat) :
    (weRun false (cmdStream (trWritePage o a buf fuel k).tr)).isSome = true := by
  rw [trWritePage]
  by_cases hl : buf.length > W25Q128_PAGE_SIZE
  · rw [if_pos hl]
    rfl
  · rw [if_neg hl]
    dsimp only [trWriteEnable]
    by_cases h1 : o.ok k = true
    · rw [if_pos h1]
      by_cases h2 : o.ok (k + 1) = true
      · rw [if_pos h2]
        by_cases h3 : o.ok (k + 1 + 1) = true
        · rw [if_pos h3]
          dsimp only
          rw [show ∀ s, cmdStream (([SpiEv.csLow, SpiEv.tx [0x06], SpiEv.csHigh] ++
            [SpiEv.csLow, SpiEv.tx (addr24 0x02 a), SpiEv.tx buf, SpiEv.csHigh]) ++ s) =
              0x06 :: 0x02 :: cmdStream s from fun s => rfl]
          rw [show ∀ l, weRun false (0x06 :: 0x02 :: l) = weRun false l from fun l => rfl]
          rw [weRun_trWait o fuel _]
          rfl
        · rw [if_neg h3]
          rfl
      · rw [if_neg h2]
        rfl
    · rw [if_neg h1]
      rfl

theorem weRun_trWriteMulti (o : SpiOracle) (fuel : Nat) :
    ∀ (g a : Nat) (buf : List Nat) (k : Nat),
      (weRun false (cmdStream (trWriteMulti o fuel g a buf k).1)).isSome = true := by
  intro g
  induction g with
  | zero => intro a buf k; rfl
  | succ g ih =>
    intro a buf k
    rw [trWriteMulti]
    by_cases h0 : buf.length = 0
    · rw [if_pos h0]
      rfl
    · rw [if_neg h0]
      dsimp only
      by_cases hs : (trWritePage o a
          (buf.take (min (W25Q128_PAGE_SIZE - a % W25Q128_PAGE_SIZE) buf.length)) fuel k).succ = true
      · rw [if_pos hs]
        dsimp only
        rw [cmdStream_trWritePage_append, weRun_append, weRun_trWritePage_succ o a _ fuel k hs]
        exact ih _ _ _
      · rw [if_neg hs]
        exact weRun_trWritePage_isSome o a _ fuel k

theorem weRun_trEraseSector (o : SpiOracle) (a fuel k : Nat) :
    (weRun false (cmdStream (trEraseSector o a fuel k).tr)).isSome = true := by
  rw [trEraseSector]
  dsimp only [trWriteEnable]
  by_cases h1 : o.ok k = true
  · rw [if_pos h1]
    by_cases h2 : o.ok (k + 1) = true
    · rw [if_pos h2]
      dsimp only
      rw [show ∀ s, cmdStream (([SpiEv.csLow, SpiEv.tx [0x06], SpiEv.csHigh] ++
        [SpiEv.csLow, SpiEv.tx (addr24 0x20 a), SpiEv.csHigh]) ++ s) =
          0x06 :: 0x20 :: cmdStream s from fun s => rfl]
      rw [show ∀ l, weRun false (0x06 :: 0x20 :: l) = weRun false l from fun l => rfl]
      rw [weRun_trWait o fuel _]
      rfl
    · rw [if_neg h2]
      rfl
  · rw [if_neg h1]
    rfl

theorem weRun_trEraseBlock (o : SpiOracle) (a fuel k : Nat) :
    (weRun false (cmdStream (trEraseBlock o a fuel k).tr)).isSome = true := by
  rw [trEraseBlock]
  dsimp only [trWriteEnable]
  by_cases h1 : o.ok k = true
  · rw [if_pos h1]
    by_cases h2 : o.ok (k + 1) = true
    · rw [if_pos h2]
      dsimp only
      rw [show ∀ s, cmdStream (([SpiEv.csLow, SpiEv.tx [0x06], SpiEv.csHigh] ++
        [SpiEv.csLow, SpiEv.tx (addr24 0xD8 a), SpiEv.csHigh]) ++ s) =
          0x06 :: 0xD8 :: cmdStream s from fun s => rfl]
      rw [show ∀ l, weRun false (0x06 :: 0xD8 :: l) = weRun false l from fun l => rfl]
      rw [weRun_trWait o fuel _]
      rfl
    · rw [if_neg h2]
      rfl
  · rw [if_neg h1]
    rfl

theorem weRun_trEraseChip (o : SpiOracle) (fuel k : Nat) :
    (weRun false (cmdStream (trEraseChip o fuel k).tr)).isSome = true := by
  rw [trEraseChip]
  dsimp only [trWriteEnable]
  by_cases h1 : o.ok k = true
  · rw [if_pos h1]
    by_cases h2 : o.ok (k + 1) = true
    · rw [if_pos h2]
      dsimp only
      rw [show ∀ s, cmdStream (([SpiEv.csLow, SpiEv.tx [0x06], SpiEv.csHigh] ++
        [SpiEv.csLow, SpiEv.tx [0xC7], SpiEv.csHigh]) ++ s) =
          0x06 :: 0xC7 :: cmdStream s from fun s => rfl]
      rw [show ∀ l, weRun false (0x06 :: 0xC7 :: l) = weRun false l from fun l => rfl]
      rw [weRun_trWait o fuel _]
      rfl
    · rw [if_neg h2]
      rfl
  · rw [if_neg h1]
    rfl

/-- C7: in the transaction opcode stream emitted by any driver operation
under any SPI oracle, every page-program (`0x02`), sector-erase (`0x20`),
64 KiB block-erase (`0xD8`) and chip-erase (`0xC7`) opcode is immediately
preceded by exactly one write-enable opcode (`0x06`), never zero and never
a doubled write enable (`weRun` returns `none` on any violation). -/
theorem W25Q128_writeEnablePairing (op : DriverOp) (o : SpiOracle) (fuel : Nat) :
    (weRun false (cmdStream (opTrace op o fuel))).isSome = true := by
  cases op with
  | rdID =>
    show (weRun false (cmdStream (trReadID o 0).tr)).isSome = true
    rw [trReadID]
    cases h : o.ok 0 <;> rfl
  | rdJEDEC =>
    show (weRun false (cmdStream (trReadJEDEC o 0).tr)).isSome = true
    rw [trReadJEDEC]
    cases h : o.ok 0 <;> rfl
  | rdStatus =>
    show (weRun false (cmdStream (trReadStatus o 0).tr)).isSome = true
    rw [cmdStream_trReadStatus]
    rfl
  | wrEnable => rfl
  | wrDisable => rfl
  | rdData a len =>
    show (weRun false (cmdStream (trReadData o a len 0).tr)).isSome = true
    rw [trReadData]
    cases h : o.ok 0 <;> rfl
  | wrPage a buf => exact weRun_trWritePage_isSome o a buf fuel 0
  | wrMulti a buf => exact weRun_trWriteMulti o fuel buf.length a buf 0
  | eraseSec a => exact weRun_trEraseSector o a fuel 0
  | eraseBlk a => exact weRun_trEraseBlock o a fuel 0
  | eraseAll => exact weRun_trEraseChip o fuel 0
  | powerDn => rfl
  | wake => rfl
